import Mathlib

/-!
Shallow embedding of `src/pull-articles.py` (newsmonger).

The script polls categorized RSS feeds, deduplicates article links through a
`recent_links` SQLite table, stores per-category article metadata in one table
per category, and archives the raw fetched page under
`articles/<category>/<derived filename>`.

Modelling decisions (each definition cites the source lines it embeds):
* SQLite with `isolation_level='IMMEDIATE'` is modelled by a pair of database
  snapshots: `pending` is what the connection's cursor sees (its own
  uncommitted writes included), `committed` is what is durable on disk.
  `db.commit()` copies `pending` into `committed`; a process interruption
  (crash) rolls `pending` back, leaving `committed`.
* External collaborators (the network via `requests.get`, `feedparser.parse`,
  `BeautifulSoup(...).get_text`, `datetime.now`, and filesystem write success)
  are oracle fields of an `Env` record.
* Python exceptions are modelled by an explicit error value that aborts the
  run, carrying the database state at the moment of the crash (only its
  `committed` part survives the process).
* Strings are Lean `String`; Python `\W` is modelled on its ASCII fragment.
-/

namespace Newsmonger

/-! ### Data model and operations, embedded from the source -/

/-- One row of a per-category table, per `CAT_SCHEMA` (lines 26-39) and the
INSERT at lines 131-145.  The `id integer PRIMARY KEY` is the row's position
in the list and is not stored. -/

structure Row where
  link : String
  date : String
  title : Option String
  published : Option String
  summary : String
  language : Option String
  contributors : String
  publisher : Option String
  stripped_text : String
deriving DecidableEq, Repr

/-- The SQLite database file `seen_articles.db`.
`recentCreated` records whether the `recent_links` table exists in
`sqlite_master`; `recent` is its rows `(link, date)` (lines 48-56);
`cats` is the per-category tables, keyed by table name (lines 26-39). -/

structure DB where
  recentCreated : Bool
  recent : List (String × String)
  cats : List (String × List Row)
deriving DecidableEq, Repr

/-- Connection state: `committed` is durable, `pending` is the connection's
view including its own uncommitted writes (sqlite3, `isolation_level='IMMEDIATE'`,
line 176). -/

structure DBState where
  committed : DB
  pending : DB
deriving DecidableEq, Repr

/-- `db.commit()`: the pending writes become durable. -/

def commitDB (s : DBState) : DBState :=
  { s with committed := s.pending }

/-- The table names present in `sqlite_master`. -/

def DB.tableNames (d : DB) : List String :=
  (if d.recentCreated then ["recent_links"] else []) ++ d.cats.map Prod.fst

/-- `_check_db_table_exists` (lines 62-70): query `sqlite_master` for the
name and test whether the result set is empty. -/

def _check_db_table_exists (d : DB) (table : String) : Bool :=
  if (d.tableNames.filter (fun n => n == table)).length == 0 then false else true

/-- `_create_recent_schema` (lines 58-60) executes `RECENT_SCHEMA`
(lines 48-56): create the `recent_links` table (empty) with its unique index
on `link`.  The caller only reaches this when the table is absent. -/

def _create_recent_schema (d : DB) : DB :=
  { d with recentCreated := true, recent := [] }

/-- `_create_db_category` (lines 72-80) executes `CAT_SCHEMA % topic`:
`CREATE TABLE IF NOT EXISTS "<topic>"` — appends an empty table when absent. -/

def _create_db_category (d : DB) (topic : String) : DB :=
  if (d.cats.filter (fun t => t.1 == topic)).length == 0 then
    { d with cats := d.cats ++ [(topic, [])] }
  else d

/-- `_record_exists` (lines 84-97): `SELECT * FROM recent_links where link = url`
and test whether the result set is empty.  (The source interpolates `url` into
the SQL text; the model is the lookup that query performs.) -/

def _record_exists (d : DB) (url : String) : Bool :=
  if (d.recent.filter (fun r => r.1 == url)).length == 0 then false else true

/-- SQLite error raised by a write statement. -/

inductive SqlError where
  | integrityError
deriving DecidableEq, Repr

/-- The category-table INSERT (lines 131-145): append the row to the topic's
table.  `record_article` only issues it right after ensuring the table exists
(lines 114-116), so the name is present in `cats`. -/

def insertCategoryRow (d : DB) (topic : String) (r : Row) : DB :=
  { d with cats := d.cats.map (fun t => if t.1 == topic then (t.1, t.2 ++ [r]) else t) }

/-- The `recent_links` INSERT (lines 146-153).  The unique index
`idx_links_link` (line 55) makes a duplicate `link` raise `IntegrityError`. -/

def insertRecent (d : DB) (link date : String) : Except SqlError DB :=
  if (d.recent.filter (fun r => r.1 == link)).length == 0 then
    Except.ok { d with recent := d.recent ++ [(link, date)] }
  else Except.error SqlError.integrityError

/-- An RSS item as `record_article` consumes it: a dictionary whose fields may
be absent (`article.get(...)` returns `None`), per the accesses at lines
111, 119, 122, 135-142 and 157-158. -/

structure Article where
  link : Option String
  title : Option String
  published : Option String
  summary : Option String
  language : Option String
  contributors : Option String
  publisher : Option String
deriving DecidableEq, Repr

/-- Python `str(x)` on an optional value, as applied to
`article.get('contributors')` at line 141: `str(None) = "None"`. -/

def pyStr : Option String → String
  | none => "None"
  | some s => s

/-- A parsed feed as returned by `feedparser.parse` (line 192):
the `bozo` flag, the `feed['feed']` metadata keys read at line 198
(absent key raises `KeyError`), and the `items` sequence. -/

structure Feed where
  bozo : Bool
  metaTitle : Option String
  metaSubtitle : Option String
  items : List Article
deriving Repr

/-- A network fetch failure: `requests.get` raises (connection error,
timeout).  An HTTP error status does NOT raise — it returns a body. -/

inductive FetchError where
  | network
  | timeout
deriving DecidableEq, Repr

/-- The filesystem under `drop_path = 'articles'`: the per-category
directories (lines 189-190) and the archive files keyed by
`(topic, filename)` with their text content (lines 167-171). -/

structure FS where
  dirs : List String
  files : List (String × String × String)
deriving DecidableEq, Repr

/-- Lines 189-190: `os.mkdir(drop_path + '/' + row[1])` unless the directory
already exists. -/

def ensureDir (fs : FS) (cat : String) : FS :=
  if fs.dirs.contains cat then fs else { fs with dirs := fs.dirs ++ [cat] }

/-- Lines 169-171: `gzip.open(path, "wt")` creates or truncates the file and
writes `req.text`.  An existing `(topic, filename)` entry is overwritten. -/

def writeArchive (fs : FS) (topic filename body : String) : FS :=
  if fs.files.any (fun f => f.1 == topic && f.2.1 == filename) then
    { fs with files :=
        (fs.files.map (fun f =>
          if f.1 == topic && f.2.1 == filename then (f.1, f.2.1, body) else f)) }
  else { fs with files := fs.files ++ [(topic, filename, body)] }

/-- The script's external collaborators, held fixed for a run:
* `fetch`: `requests.get(link)` (line 122) — either a raised exception or the
  response body `req.text`;
* `extractText`: `BeautifulSoup(markup, features="lxml").get_text(strip=True)`
  on a non-`None` markup (lines 119 and 126);
* `now`: `str(datetime.datetime.now())` (lines 136, 151);
* `nowTimestamp`: `str(datetime.datetime.now().timestamp())` (line 162);
* `archiveOk`: whether opening/writing `articles/<topic>/<filename>`
  succeeds (lines 169-171), `false` meaning an `IOError` is raised;
* `feeds`: `feedparser.parse(url)` (line 192). -/

structure Env where
  fetch : String → Except FetchError String
  extractText : String → String
  now : String
  nowTimestamp : String
  archiveOk : String → String → Bool
  feeds : String → Feed

/-- A Python exception escaping `record_article` or the main loop. -/

inductive RunError where
  /-- `article['link']` on an item without a link (line 111). -/
  | keyError
  /-- `BeautifulSoup(None, ...)` when `summary` is absent (line 119). -/
  | typeError
  /-- `requests.get` raised (line 122). -/
  | fetchFailed (e : FetchError)
  /-- `sqlite3.IntegrityError` from an INSERT (lines 146-153). -/
  | integrityError
  /-- `IOError` opening or writing the archive file (lines 169-171). -/
  | ioError
deriving DecidableEq, Repr

/-- Outcome of running `record_article` up to, but not including, the
`db.commit()` at line 154. -/

inductive MetaOutcome where
  /-- `return False` at line 112: the link was already in `recent_links`. -/
  | skipped
  /-- an exception was raised before the commit point. -/
  | errored (e : RunError)
  /-- both INSERTs are in the pending transaction; `body` is `req.text`. -/
  | ready (body : String)
deriving DecidableEq, Repr

/-- `record_article` (lines 100-153) up to, but not including, the
`db.commit()` at line 154.  Interrupting the process anywhere in this span
leaves exactly the returned state's `committed` database on disk, because the
only commits in the span are the table-creation commits (lines 60, 80).
Control flow, in source order:
line 111 `article['link']` (KeyError when absent) and `_record_exists`;
lines 114-116 ensure the topic table (committing the DDL);
line 119 summary extraction (TypeError on `None`);
line 122 the fetch; line 126 text extraction;
lines 131-145 the category INSERT; lines 146-153 the `recent_links` INSERT. -/

def recordArticleUpToCommit (env : Env) (s : DBState) (a : Article) (topic : String) :
    DBState × MetaOutcome :=
  match a.link with
  | none => (s, MetaOutcome.errored RunError.keyError)
  | some link =>
    if _record_exists s.pending link then (s, MetaOutcome.skipped)
    else
      let s1 :=
        if _check_db_table_exists s.pending topic then s
        else commitDB { s with pending := _create_db_category s.pending topic }
      match a.summary with
      | none => (s1, MetaOutcome.errored RunError.typeError)
      | some rawSummary =>
        let summary := env.extractText rawSummary
        match env.fetch link with
        | Except.error e => (s1, MetaOutcome.errored (RunError.fetchFailed e))
        | Except.ok body =>
          let strippedText := env.extractText body
          let row : Row :=
            { link := link
              date := env.now
              title := a.title
              published := a.published
              summary := summary
              language := a.language
              contributors := pyStr a.contributors
              publisher := a.publisher
              stripped_text := strippedText }
          let s2 := { s1 with pending := insertCategoryRow s1.pending topic row }
          match insertRecent s2.pending link env.now with
          | Except.error _ => (s2, MetaOutcome.errored RunError.integrityError)
          | Except.ok p => ({ s2 with pending := p }, MetaOutcome.ready body)

/-- ASCII fragment of Python's `\w` character class: `[a-zA-Z0-9_]`. -/

def isWordChar (c : Char) : Bool :=
  c.isAlphanum || c == '_'

/-- `re.sub(r'\W+', sep, s)` on a character list: each maximal run of
non-word characters collapses to a single `sep`.  The flag says whether the
previous character belonged to a non-word run. -/

def collapseNonWord (sep : Char) : List Char → Bool → List Char
  | [], _ => []
  | c :: cs, inRun =>
    if isWordChar c then c :: collapseNonWord sep cs false
    else if inRun then collapseNonWord sep cs true
    else sep :: collapseNonWord sep cs true

/-- `re.sub(r'\W+', sep, s)` (lines 157-158). -/

def subNonWord (sep : Char) (s : String) : String :=
  String.mk (collapseNonWord sep s.data false)

/-- Python `str.replace(a, b)` for single characters (line 159). -/

def pyReplaceChar (a b : Char) (s : String) : String :=
  String.mk (s.data.map (fun c => if c == a then b else c))

/-- Python slicing `s[:n]` on a `str`: the first `n` characters (line 165). -/

def pyTruncate (n : Nat) (s : String) : String :=
  String.mk (s.data.take n)

/-- Lines 156-165: derive the archive filename.  When `published` or `title`
is `None`, `re.sub` raises `TypeError` and the handler falls back to
`str(datetime.now().timestamp())` (`env.nowTimestamp`).  Either way the name
is cut to 100 characters and `".txt.gz"` is appended. -/

def deriveFilename (env : Env) (published title : Option String) : String :=
  let stem :=
    match published, title with
    | some p, some t =>
      pyReplaceChar ' ' '_' (subNonWord ':' p) ++ "_" ++ pyReplaceChar ' ' '_' (subNonWord '_' t)
    | _, _ => env.nowTimestamp
  pyTruncate 100 stem ++ ".txt.gz"

/-- Result of `record_article` on one item, as seen by the run:
either control returns to the main loop, or an exception escapes.  On
`crashed` only `s.committed` is durable (the pending transaction rolls
back when the process dies). -/

inductive RAResult where
  | done (s : DBState) (fs : FS)
  | crashed (e : RunError) (s : DBState) (fs : FS)
deriving DecidableEq, Repr

/-- `record_article` (lines 100-171): the pre-commit phase, then
`db.commit()` (line 154), the filename derivation (lines 156-165), and the
archive write (lines 167-171) whose failure raises an uncaught `IOError`. -/

def record_article (env : Env) (s : DBState) (fs : FS) (a : Article) (topic : String) :
    RAResult :=
  match recordArticleUpToCommit env s a topic with
  | (s1, MetaOutcome.skipped) => RAResult.done s1 fs
  | (s1, MetaOutcome.errored e) => RAResult.crashed e s1 fs
  | (s1, MetaOutcome.ready body) =>
    let s2 := commitDB s1
    let filename := deriveFilename env a.published a.title
    if env.archiveOk topic filename then
      RAResult.done s2 (writeArchive fs topic filename body)
    else RAResult.crashed RunError.ioError s2 fs

/-- The inner loop at lines 206-207: `record_article` on each item in feed
order; an escaping exception aborts the whole run. -/

def processItems (env : Env) (topic : String) :
    List Article → DBState → FS → RAResult
  | [], s, fs => RAResult.done s fs
  | a :: rest, s, fs =>
    match record_article env s fs a topic with
    | RAResult.done s1 fs1 => processItems env topic rest s1 fs1
    | RAResult.crashed e s1 fs1 => RAResult.crashed e s1 fs1

/-- One configured category: `row[1]` is the category name, `row[2]` the feed
URL (lines 189-191). -/

structure Category where
  name : String
  url : String
deriving DecidableEq, Repr

/-- Outcome of the whole run. -/

inductive RunResult where
  | ok (s : DBState) (fs : FS)
  /-- an exception escaped `record_article`; `s.committed` is what survives. -/
  | crashed (e : RunError) (s : DBState) (fs : FS)
  /-- `sys.exit(1)` at line 205. -/
  | exit1 (s : DBState) (fs : FS)
deriving DecidableEq, Repr

/-- The per-category loop (lines 187-207).  For each CSV row: make the drop
directory (lines 189-190), parse the feed (line 192), skip a bozo feed with a
warning (lines 193-196), print the item count from `feed['feed']['title']` and
`feed['feed']['subtitle']` — a missing key is caught and turned into
`sys.exit(1)` (lines 197-205) — then run the items (lines 206-207). -/

def processCategories (env : Env) :
    List Category → DBState → FS → RunResult
  | [], s, fs => RunResult.ok s fs
  | cat :: rest, s, fs =>
    let fs1 := ensureDir fs cat.name
    let feed := env.feeds cat.url
    if feed.bozo then processCategories env rest s fs1
    else if feed.metaTitle.isNone || feed.metaSubtitle.isNone then RunResult.exit1 s fs1
    else
      match processItems env cat.name feed.items s fs1 with
      | RAResult.done s1 fs2 => processCategories env rest s1 fs2
      | RAResult.crashed e s1 fs2 => RunResult.crashed e s1 fs2

/-- The whole script body (lines 179-208): ensure the `recent_links` schema
exists (lines 183-185, committing the DDL), then the per-category loop. -/

def runMain (env : Env) (cats : List Category) (s : DBState) (fs : FS) : RunResult :=
  let s1 :=
    if _check_db_table_exists s.pending "recent_links" then s
    else commitDB { s with pending := _create_recent_schema s.pending }
  processCategories env cats s1 fs

/-- The links currently recorded in `recent_links`. -/

def DB.recentLinks (d : DB) : List String :=
  d.recent.map Prod.fst

/-- The rows of table `topic` (empty list when the table is absent). -/

def DB.rowsOf (d : DB) (topic : String) : List Row :=
  ((d.cats.filter (fun t => t.1 == topic)).map Prod.snd).flatten

/-- The rows of table `topic` whose `link` column equals `l`. -/

def DB.linkRows (d : DB) (topic l : String) : List Row :=
  (d.rowsOf topic).filter (fun r => r.link == l)

/-- The exception the run ended with, if any. -/

def RunResult.errorOf : RunResult → Option RunError
  | RunResult.crashed e _ _ => some e
  | _ => none

/-- The database that is durable once the process is gone: the committed
snapshot (on a crash the pending transaction rolls back). -/

def RunResult.finalDB : RunResult → DB
  | RunResult.ok s _ => s.committed
  | RunResult.crashed _ s _ => s.committed
  | RunResult.exit1 s _ => s.committed

/-- The filesystem when the process ends. -/

def RunResult.finalFS : RunResult → FS
  | RunResult.ok _ fs => fs
  | RunResult.crashed _ _ fs => fs
  | RunResult.exit1 _ fs => fs

/-- The pending database after the ensure-table step (lines 114-116). -/

def ensuredPending (s : DBState) (topic : String) : DB :=
  if _check_db_table_exists s.pending topic then s.pending
  else _create_db_category s.pending topic

/-- The category row built at lines 131-145 for an item with link `L`,
summary markup `w` and fetched body `body`. -/

def mkRow (env : Env) (a : Article) (L w body : String) : Row :=
  { link := L
    date := env.now
    title := a.title
    published := a.published
    summary := env.extractText w
    language := a.language
    contributors := pyStr a.contributors
    publisher := a.publisher
    stripped_text := env.extractText body }

/-! ### Concrete fixtures used to evaluate the model at specific inputs -/

/-- An RSS item with every field present. -/

def itemA : Article :=
  { link := some "http://x/1"
    title := some "Title One"
    published := some "Mon, 01 Jan 2024 00:00:00"
    summary := some "<p>sum one</p>"
    language := some "en"
    contributors := some "alice"
    publisher := some "pub" }

/-- A second RSS item with every field present and a different link. -/

def itemB : Article :=
  { link := some "http://x/2"
    title := some "Title Two"
    published := some "Tue, 02 Jan 2024 00:00:00"
    summary := some "<p>sum two</p>"
    language := some "en"
    contributors := some "bob"
    publisher := some "pub" }

/-- An RSS item whose `summary` field is absent. -/

def itemNoSummary : Article :=
  { itemA with link := some "http://x/3", summary := none }

/-- The empty database of a first run (no `seen_articles.db` yet). -/

def db0 : DB := { recentCreated := false, recent := [], cats := [] }

/-- Fresh connection state over the empty database. -/

def state0 : DBState := { committed := db0, pending := db0 }

/-- The empty drop directory. -/

def fsEmpty : FS := { dirs := [], files := [] }

/-- One configured category, like a row of `categories.csv`. -/

def catNews : Category := { name := "news", url := "http://feed/news" }

/-- Environment where every fetch and archive write succeeds and the single
feed is well-formed with items `itemA, itemB`. -/

def envOk : Env :=
  { fetch := fun _ => Except.ok "<html>raw page</html>"
    extractText := fun s => "txt:" ++ s
    now := "2026-10-12 09:00:00.000000"
    nowTimestamp := "1760259600.0"
    archiveOk := fun _ _ => true
    feeds := fun _ =>
      { bozo := false
        metaTitle := some "News"
        metaSubtitle := some "All the news"
        items := [itemA, itemB] } }

/-- Like `envOk`, but fetching `itemA`'s link raises a network error. -/

def envFetchFail : Env :=
  { envOk with
      fetch := fun l =>
        if l == "http://x/1" then Except.error FetchError.network
        else Except.ok "<html>raw page</html>" }

/-- Like `envOk`, but the feed's first item lacks a `summary`. -/

def envNoSummary : Env :=
  { envOk with
      feeds := fun _ =>
        { bozo := false
          metaTitle := some "News"
          metaSubtitle := some "All the news"
          items := [itemNoSummary, itemB] } }

/-- Like `envOk`, but every archive write raises `IOError`. -/

def envNoArchive : Env :=
  { envOk with archiveOk := fun _ _ => false }

/-- Like `envOk`, but the feed comes back with the `bozo` flag set. -/

def envBozo : Env :=
  { envOk with
      feeds := fun _ =>
        { bozo := true
          metaTitle := some "News"
          metaSubtitle := some "All the news"
          items := [itemA, itemB] } }

/-- Like `envOk`, but the feed metadata lacks `subtitle` (and is not bozo). -/

def envNoSubtitle : Env :=
  { envOk with
      feeds := fun _ =>
        { bozo := false
          metaTitle := some "News"
          metaSubtitle := none
          items := [itemA, itemB] } }

/-- helper fixtures -/

def dRecentOne : DB :=
  { recentCreated := true, recent := [("http://x/1", "d1")], cats := [] }

/-- The cache after also accepting a second link. -/
def dRecentTwo : DB :=
  { recentCreated := true
    recent := [("http://x/1", "d1"), ("http://x/2", "d2")]
    cats := [] }

/-- An RSS item with only `link` and `summary` present. -/

def itemSparse : Article :=
  { link := some "http://x/4"
    title := none
    published := none
    summary := some "<p>bare</p>"
    language := none
    contributors := none
    publisher := none }

/-- Like `envOk`, but the feed's only item is the sparse one. -/

def envSparse : Env :=
  { envOk with
      feeds := fun _ =>
        { bozo := false
          metaTitle := some "News"
          metaSubtitle := some "All the news"
          items := [itemSparse] } }

/-- The row stored for `itemA` under `news` in `envOk`. -/

def rowA : Row :=
  { link := "http://x/1"
    date := "2026-10-12 09:00:00.000000"
    title := some "Title One"
    published := some "Mon, 01 Jan 2024 00:00:00"
    summary := "txt:<p>sum one</p>"
    language := some "en"
    contributors := "alice"
    publisher := some "pub"
    stripped_text := "txt:<html>raw page</html>" }

/-- The database after ingesting `itemA` under `news` from `state0`. -/

def dbAfterA : DB :=
  { recentCreated := false
    recent := [("http://x/1", "2026-10-12 09:00:00.000000")]
    cats := [("news", [rowA])] }

/-- Connection state after `record_article envOk state0 fsEmpty itemA "news"`. -/

def stateAfterA : DBState := { committed := dbAfterA, pending := dbAfterA }

/-- Filesystem after that same call. -/

def fsAfterA : FS :=
  { dirs := []
    files := [("news", "Mon:01:Jan:2024:00:00:00_Title_One.txt.gz", "<html>raw page</html>")] }

/-- The row stored for `itemB` under `news` in `envOk`. -/

def rowB : Row :=
  { link := "http://x/2"
    date := "2026-10-12 09:00:00.000000"
    title := some "Title Two"
    published := some "Tue, 02 Jan 2024 00:00:00"
    summary := "txt:<p>sum two</p>"
    language := some "en"
    contributors := "bob"
    publisher := some "pub"
    stripped_text := "txt:<html>raw page</html>" }

/-- The database after the first full `envOk` run over `catNews`. -/

def dbRun1 : DB :=
  { recentCreated := true
    recent := [("http://x/1", "2026-10-12 09:00:00.000000"),
               ("http://x/2", "2026-10-12 09:00:00.000000")]
    cats := [("news", [rowA, rowB])] }

/-- Connection state after the first full run. -/

def stateRun1 : DBState := { committed := dbRun1, pending := dbRun1 }

/-- Filesystem after the first full run. -/

def fsRun1 : FS :=
  { dirs := ["news"]
    files := [("news", "Mon:01:Jan:2024:00:00:00_Title_One.txt.gz", "<html>raw page</html>"),
              ("news", "Tue:02:Jan:2024:00:00:00_Title_Two.txt.gz", "<html>raw page</html>")] }

set_option maxRecDepth 8192

/-! ### Supporting lemmas -/

lemma record_exists_iff (d : DB) (l : String) :
    _record_exists d l = true ↔ l ∈ d.recentLinks := by
  unfold _record_exists DB.recentLinks
  split
  · rename_i h
    simp only [beq_iff_eq, List.length_eq_zero, List.filter_eq_nil_iff] at h
    refine iff_of_false (by simp) ?_
    intro hmem
    rcases List.mem_map.mp hmem with ⟨r, hr, hrl⟩
    exact h r hr (by simp [hrl])
  · rename_i h
    simp only [beq_iff_eq, List.length_eq_zero, List.filter_eq_nil_iff] at h
    push_neg at h
    rcases h with ⟨r, hr, hrl⟩
    exact iff_of_true rfl (List.mem_map.mpr ⟨r, hr, by simpa using hrl⟩)

lemma check_table_iff (d : DB) (n : String) :
    _check_db_table_exists d n = true ↔ n ∈ d.tableNames := by
  unfold _check_db_table_exists
  split
  · rename_i h
    simp only [beq_iff_eq, List.length_eq_zero, List.filter_eq_nil_iff] at h
    refine iff_of_false (by simp) ?_
    intro hmem
    exact h n hmem (by simp)
  · rename_i h
    simp only [beq_iff_eq, List.length_eq_zero, List.filter_eq_nil_iff] at h
    push_neg at h
    rcases h with ⟨m, hm, hmn⟩
    have : m = n := by simpa using hmn
    exact iff_of_true rfl (this ▸ hm)

lemma create_cat_recent (d : DB) (t : String) :
    (_create_db_category d t).recent = d.recent := by
  unfold _create_db_category
  split <;> rfl

lemma create_cat_recentCreated (d : DB) (t : String) :
    (_create_db_category d t).recentCreated = d.recentCreated := by
  unfold _create_db_category
  split <;> rfl

lemma insertCat_recent (d : DB) (t : String) (r : Row) :
    (insertCategoryRow d t r).recent = d.recent := rfl

lemma insertCat_recentCreated (d : DB) (t : String) (r : Row) :
    (insertCategoryRow d t r).recentCreated = d.recentCreated := rfl

lemma insertCat_names (d : DB) (t : String) (r : Row) :
    (insertCategoryRow d t r).cats.map Prod.fst = d.cats.map Prod.fst := by
  unfold insertCategoryRow
  rw [List.map_map]
  apply List.map_congr_left
  intro x _
  by_cases hx : x.1 = t <;> simp [hx]

lemma insertCat_tableNames (d : DB) (t : String) (r : Row) :
    (insertCategoryRow d t r).tableNames = d.tableNames := by
  unfold DB.tableNames
  rw [insertCat_recentCreated, insertCat_names]

lemma create_cat_tableNames_mem (d : DB) (t n : String) (h : n ∈ d.tableNames) :
    n ∈ (_create_db_category d t).tableNames := by
  unfold _create_db_category
  split
  · unfold DB.tableNames at h ⊢
    dsimp only
    rw [List.map_append]
    rcases List.mem_append.mp h with h1 | h2
    · exact List.mem_append.mpr (Or.inl h1)
    · exact List.mem_append.mpr (Or.inr (List.mem_append.mpr (Or.inl h2)))
  · exact h

lemma create_cat_rowsOf (d : DB) (t t2 : String) :
    (_create_db_category d t).rowsOf t2 = d.rowsOf t2 := by
  unfold _create_db_category DB.rowsOf
  split
  · by_cases ht : t == t2 <;> simp [List.filter_append, ht]
  · rfl

lemma writeArchive_dirs (fs : FS) (t f b : String) :
    (writeArchive fs t f b).dirs = fs.dirs := by
  unfold writeArchive
  split <;> rfl

/-- Between the start of `record_article` and the `db.commit()` at line 154,
the only commit is the table-creation one (line 80), so the durable database
at every point of that span is either the entry state's or the entry state's
with one extra empty table. -/
lemma upToCommit_committed (env : Env) (s : DBState) (a : Article) (topic : String) :
    (recordArticleUpToCommit env s a topic).1.committed = s.committed
    ∨ (recordArticleUpToCommit env s a topic).1.committed
        = _create_db_category s.pending topic := by
  unfold recordArticleUpToCommit
  repeat' first
    | exact Or.inl rfl
    | exact Or.inr rfl
    | split
    | dsimp only

lemma record_exists_eq_of_recent (d d2 : DB) (l : String) (h : d.recent = d2.recent) :
    _record_exists d l = _record_exists d2 l := by
  unfold _record_exists
  rw [h]

lemma ensuredPending_recent (s : DBState) (topic : String) :
    (ensuredPending s topic).recent = s.pending.recent := by
  unfold ensuredPending
  split
  · rfl
  · exact create_cat_recent _ _

lemma insertRecent_of_new (d : DB) (l t : String) (hnew : _record_exists d l = false) :
    insertRecent d l t = Except.ok { d with recent := d.recent ++ [(l, t)] } := by
  unfold insertRecent
  unfold _record_exists at hnew
  split at hnew
  · rename_i hc
    rw [if_pos hc]
  · exact absurd hnew (by simp)

/-- A `record_article` call on a fresh link that returns control to the loop
must have taken the full ingestion path: summary present, fetch succeeded,
both inserts committed (the final state is clean), and the archive written. -/

lemma record_article_new_done (env : Env) (s : DBState) (fs : FS) (a : Article)
    (topic L : String) (s' : DBState) (fs' : FS)
    (hl : a.link = some L)
    (hnew : _record_exists s.pending L = false)
    (h : record_article env s fs a topic = RAResult.done s' fs') :
    ∃ w body,
      a.summary = some w ∧ env.fetch L = Except.ok body
      ∧ s'.committed = s'.pending
      ∧ s'.pending = { insertCategoryRow (ensuredPending s topic) topic (mkRow env a L w body)
            with recent := (ensuredPending s topic).recent ++ [(L, env.now)] }
      ∧ env.archiveOk topic (deriveFilename env a.published a.title) = true
      ∧ fs' = writeArchive fs topic (deriveFilename env a.published a.title) body := by
  unfold record_article recordArticleUpToCommit at h
  rw [hl] at h
  simp only [hnew, Bool.false_eq_true, if_false] at h
  rcases hsum : a.summary with _ | w
  · rw [hsum] at h
    simp at h
  · rw [hsum] at h
    dsimp only at h
    rcases hf : env.fetch L with e | body
    · rw [hf] at h
      simp at h
    · rw [hf] at h
      dsimp only at h
      rw [show (if _check_db_table_exists s.pending topic then s
            else commitDB { s with pending := _create_db_category s.pending topic }).pending
          = ensuredPending s topic from by
        unfold ensuredPending
        split <;> rfl] at h
      rw [show ({ link := L, date := env.now, title := a.title, published := a.published,
                  summary := env.extractText w, language := a.language,
                  contributors := pyStr a.contributors, publisher := a.publisher,
                  stripped_text := env.extractText body } : Row) = mkRow env a L w body
        from rfl] at h
      have hnew2 : _record_exists (insertCategoryRow (ensuredPending s topic) topic
          (mkRow env a L w body)) L = false := by
        rw [record_exists_eq_of_recent _ s.pending _
          (by rw [insertCat_recent, ensuredPending_recent])]
        exact hnew
      rw [insertRecent_of_new _ L env.now hnew2] at h
      dsimp only at h
      cases harch : env.archiveOk topic (deriveFilename env a.published a.title) with
      | true =>
        rw [if_pos harch] at h
        cases h
        exact ⟨w, body, rfl, rfl, rfl, rfl, rfl, rfl⟩
      | false =>
        rw [if_neg (by simp [harch])] at h
        exact RAResult.noConfusion h

/-- `record_article` on a link already present in `recent_links` returns at
line 112 without touching any state. -/

lemma record_article_skip (env : Env) (s : DBState) (fs : FS) (b : Article)
    (topic L : String)
    (hb : b.link = some L) (hseen : _record_exists s.pending L = true) :
    record_article env s fs b topic = RAResult.done s fs := by
  unfold record_article recordArticleUpToCommit
  rw [hb]
  dsimp only
  rw [if_pos hseen]

lemma ensuredPending_rowsOf (s : DBState) (t t2 : String) :
    (ensuredPending s t).rowsOf t2 = s.pending.rowsOf t2 := by
  unfold ensuredPending
  split
  · rfl
  · exact create_cat_rowsOf _ _ _

lemma insertCat_filter_cats (d : DB) (A B : String) (r : Row) :
    (insertCategoryRow d A r).cats.filter (fun c => c.1 == B)
      = ((d.cats.filter (fun c => c.1 == B)).map
          (fun t => if t.1 == A then (t.1, t.2 ++ [r]) else t)) := by
  unfold insertCategoryRow
  rw [List.filter_map]
  congr 1
  apply List.filter_congr
  intro x _
  by_cases hx : x.1 = A <;> simp [hx]

lemma insertCat_rowsOf_ne (d : DB) (A B : String) (r : Row) (hne : B ≠ A) :
    (insertCategoryRow d A r).rowsOf B = d.rowsOf B := by
  unfold DB.rowsOf
  rw [insertCat_filter_cats]
  congr 1
  have hid : ((d.cats.filter (fun c => c.1 == B)).map
      (fun t => if t.1 == A then (t.1, t.2 ++ [r]) else t))
      = (d.cats.filter (fun c => c.1 == B)).map (fun t => t) := by
    apply List.map_congr_left
    intro x hx
    have hxB : (x.1 == B) = true := (List.mem_filter.mp hx).2
    have hxA : ¬ (x.1 == A) = true := by
      simp only [beq_iff_eq] at hxB ⊢
      rw [hxB]
      exact hne
    simp [hxA]
  rw [hid, List.map_id']

lemma insertCat_rowsOf_single (d : DB) (A : String) (r : Row)
    (h1 : (d.cats.filter (fun c => c.1 == A)).length = 1) :
    (insertCategoryRow d A r).rowsOf A = d.rowsOf A ++ [r] := by
  unfold DB.rowsOf
  rw [insertCat_filter_cats]
  rcases List.length_eq_one.mp h1 with ⟨c, hc⟩
  rw [hc]
  have hcmem : c ∈ d.cats.filter (fun c => c.1 == A) := by
    rw [hc]
    exact List.mem_singleton.mpr rfl
  have hcA : c.1 = A := by simpa using (List.mem_filter.mp hcmem).2
  simp [hcA]

lemma ensured_filter_cats_one (s : DBState) (A : String) (hA : A ≠ "recent_links")
    (hA1 : (s.pending.cats.filter (fun c => c.1 == A)).length ≤ 1) :
    ((ensuredPending s A).cats.filter (fun c => c.1 == A)).length = 1 := by
  unfold ensuredPending
  split
  · rename_i hch
    have hmem : A ∈ s.pending.tableNames := (check_table_iff _ _).mp hch
    unfold DB.tableNames at hmem
    have hmem2 : A ∈ s.pending.cats.map Prod.fst := by
      rcases List.mem_append.mp hmem with h | h
      · exfalso
        revert h
        split
        · simp [hA]
        · simp
      · exact h
    rcases List.mem_map.mp hmem2 with ⟨c, hc, hcA⟩
    have hne : s.pending.cats.filter (fun c => c.1 == A) ≠ [] := by
      intro hnil
      have hcmem : c ∈ s.pending.cats.filter (fun c => c.1 == A) :=
        List.mem_filter.mpr ⟨hc, by simp [hcA]⟩
      rw [hnil] at hcmem
      exact List.not_mem_nil c hcmem
    have hpos : 0 < (s.pending.cats.filter (fun c => c.1 == A)).length :=
      List.length_pos.mpr hne
    omega
  · rename_i hch
    have hnmem : A ∉ s.pending.tableNames := fun hmem => hch ((check_table_iff _ _).mpr hmem)
    have hnil : s.pending.cats.filter (fun c => c.1 == A) = [] := by
      rw [List.filter_eq_nil_iff]
      intro c hc hcA
      apply hnmem
      unfold DB.tableNames
      exact List.mem_append.mpr (Or.inr (List.mem_map.mpr ⟨c, hc, by simpa using hcA⟩))
    unfold _create_db_category
    rw [if_pos (by simp [hnil])]
    dsimp only
    rw [List.filter_append, hnil]
    simp

lemma ensureDir_mem (fs : FS) (c : String) : c ∈ (ensureDir fs c).dirs := by
  unfold ensureDir
  split
  · rename_i h
    simpa using h
  · exact List.mem_append.mpr (Or.inr (by simp))

lemma ensureDir_superset (fs : FS) (c x : String) (h : x ∈ fs.dirs) :
    x ∈ (ensureDir fs c).dirs := by
  unfold ensureDir
  split
  · exact h
  · exact List.mem_append.mpr (Or.inl h)

lemma record_article_done_link (env : Env) (s : DBState) (fs : FS) (a : Article)
    (topic : String) (s' : DBState) (fs' : FS)
    (h : record_article env s fs a topic = RAResult.done s' fs') :
    ∃ L, a.link = some L := by
  rcases hl : a.link with _ | L
  · exfalso
    unfold record_article recordArticleUpToCommit at h
    rw [hl] at h
    dsimp only at h
    exact RAResult.noConfusion h
  · exact ⟨L, rfl⟩

/-- Everything a loop-returning `record_article` preserves or adds: cleanness,
the monotone growth of `recent_links` and of the table set, directories
untouched, and the item's own link now being in `recent_links`. -/

lemma record_article_done_inv (env : Env) (s : DBState) (fs : FS) (a : Article)
    (topic : String) (s' : DBState) (fs' : FS)
    (h : record_article env s fs a topic = RAResult.done s' fs') :
    (s.pending = s.committed → s'.pending = s'.committed)
    ∧ (∀ x, x ∈ s.pending.recentLinks → x ∈ s'.pending.recentLinks)
    ∧ (∀ n, n ∈ s.pending.tableNames → n ∈ s'.pending.tableNames)
    ∧ fs'.dirs = fs.dirs
    ∧ ∃ L, a.link = some L ∧ L ∈ s'.pending.recentLinks := by
  obtain ⟨L, hl⟩ := record_article_done_link env s fs a topic s' fs' h
  cases hseen : _record_exists s.pending L with
  | true =>
    rw [record_article_skip env s fs a topic L hl hseen] at h
    obtain ⟨hs, hfs⟩ : s = s' ∧ fs = fs' := by
      cases h
      exact ⟨rfl, rfl⟩
    subst hs
    subst hfs
    exact ⟨fun hc => hc, fun x hx => hx, fun n hn => hn, rfl,
      ⟨L, hl, (record_exists_iff _ _).mp hseen⟩⟩
  | false =>
    obtain ⟨w, body, hsum, hf, hcp, hp, harch, hfs⟩ :=
      record_article_new_done env s fs a topic L s' fs' hl hseen h
    have hrecent : s'.pending.recent = s.pending.recent ++ [(L, env.now)] := by
      rw [hp]
      dsimp only
      rw [ensuredPending_recent]
    have hlinks : s'.pending.recentLinks = s.pending.recentLinks ++ [L] := by
      unfold DB.recentLinks
      rw [hrecent, List.map_append]
      rfl
    refine ⟨fun _ => hcp.symm, ?_, ?_, ?_, ⟨L, hl, ?_⟩⟩
    · intro x hx
      rw [hlinks]
      exact List.mem_append.mpr (Or.inl hx)
    · intro n hn
      rw [hp]
      rw [show DB.tableNames { insertCategoryRow (ensuredPending s topic) topic
              (mkRow env a L w body)
            with recent := (ensuredPending s topic).recent ++ [(L, env.now)] }
          = (insertCategoryRow (ensuredPending s topic) topic
              (mkRow env a L w body)).tableNames from rfl]
      rw [insertCat_tableNames]
      unfold ensuredPending
      split
      · exact hn
      · exact create_cat_tableNames_mem _ _ _ hn
    · rw [hfs, writeArchive_dirs]
    · rw [hlinks]
      exact List.mem_append.mpr (Or.inr (by simp))

/-- The same invariants, folded over the item loop at lines 206-207. -/

lemma processItems_done_inv (env : Env) (topic : String) :
    ∀ (items : List Article) (s : DBState) (fs : FS) (s' : DBState) (fs' : FS),
    processItems env topic items s fs = RAResult.done s' fs' →
    ((s.pending = s.committed → s'.pending = s'.committed)
      ∧ (∀ x, x ∈ s.pending.recentLinks → x ∈ s'.pending.recentLinks)
      ∧ (∀ n, n ∈ s.pending.tableNames → n ∈ s'.pending.tableNames)
      ∧ fs'.dirs = fs.dirs
      ∧ ∀ a, a ∈ items → ∃ L, a.link = some L ∧ L ∈ s'.pending.recentLinks) := by
  intro items
  induction items with
  | nil =>
    intro s fs s' fs' h
    unfold processItems at h
    cases h
    exact ⟨fun hc => hc, fun x hx => hx, fun n hn => hn, rfl,
      fun a ha => absurd ha (List.not_mem_nil a)⟩
  | cons a rest ih =>
    intro s fs s' fs' h
    unfold processItems at h
    cases hra : record_article env s fs a topic with
    | done s1 fs1 =>
      rw [hra] at h
      dsimp only at h
      obtain ⟨ic, il, itn, idr, ila⟩ := ih s1 fs1 s' fs' h
      obtain ⟨rc, rl, rtn, rd, L, hl, hL⟩ :=
        record_article_done_inv env s fs a topic s1 fs1 hra
      refine ⟨fun hc => ic (rc hc), fun x hx => il x (rl x hx),
        fun n hn => itn n (rtn n hn), by rw [idr, rd], ?_⟩
      intro b hb
      rcases List.mem_cons.mp hb with hb | hb
      · subst hb
        exact ⟨L, hl, il L hL⟩
      · exact ila b hb
    | crashed e s1 fs1 =>
      rw [hra] at h
      dsimp only at h
      exact RAResult.noConfusion h

/-- Invariants of a run of the outer loop (lines 187-207) that ends without
crashing: cleanness, monotone `recent_links` and table set, monotone drop
directories, and — for every processed category — its directory exists and,
unless its feed was bozo, its feed metadata was complete and every item link
ended up in `recent_links`. -/

lemma processCategories_done_inv (env : Env) :
    ∀ (cl : List Category) (s : DBState) (fs : FS) (s' : DBState) (fs' : FS),
    processCategories env cl s fs = RunResult.ok s' fs' →
    ((s.pending = s.committed → s'.pending = s'.committed)
      ∧ (∀ x, x ∈ s.pending.recentLinks → x ∈ s'.pending.recentLinks)
      ∧ (∀ n, n ∈ s.pending.tableNames → n ∈ s'.pending.tableNames)
      ∧ (∀ dn, dn ∈ fs.dirs → dn ∈ fs'.dirs)
      ∧ ∀ cat, cat ∈ cl → (cat.name ∈ fs'.dirs
          ∧ ((env.feeds cat.url).bozo = false →
              (env.feeds cat.url).metaTitle.isNone = false
              ∧ (env.feeds cat.url).metaSubtitle.isNone = false
              ∧ ∀ a, a ∈ (env.feeds cat.url).items →
                  ∃ L, a.link = some L ∧ L ∈ s'.pending.recentLinks))) := by
  intro cl
  induction cl with
  | nil =>
    intro s fs s' fs' h
    unfold processCategories at h
    cases h
    exact ⟨fun hc => hc, fun x hx => hx, fun n hn => hn, fun dn hdn => hdn,
      fun cat hcat => absurd hcat (List.not_mem_nil cat)⟩
  | cons cat rest ih =>
    intro s fs s' fs' h
    unfold processCategories at h
    dsimp only at h
    by_cases hb : (env.feeds cat.url).bozo = true
    · rw [if_pos hb] at h
      obtain ⟨ic, il, itn, idr, icat⟩ := ih s (ensureDir fs cat.name) s' fs' h
      refine ⟨ic, il, itn, fun dn hdn => idr dn (ensureDir_superset fs cat.name dn hdn), ?_⟩
      intro c hc
      rcases List.mem_cons.mp hc with hc | hc
      · subst hc
        exact ⟨idr c.name (ensureDir_mem fs c.name),
          fun hb2 => absurd hb (by rw [hb2]; exact Bool.false_ne_true)⟩
      · exact icat c hc
    · rw [if_neg hb] at h
      have hbf : (env.feeds cat.url).bozo = false := Bool.eq_false_iff.mpr hb
      by_cases hm : ((env.feeds cat.url).metaTitle.isNone
          || (env.feeds cat.url).metaSubtitle.isNone) = true
      · rw [if_pos hm] at h
        exact RunResult.noConfusion h
      · rw [if_neg hm] at h
        have hm2 := Bool.or_eq_false_iff.mp (Bool.eq_false_iff.mpr hm)
        cases hpi : processItems env cat.name (env.feeds cat.url).items s
            (ensureDir fs cat.name) with
        | done s1 fs2 =>
          rw [hpi] at h
          dsimp only at h
          obtain ⟨ic, il, itn, idr, icat⟩ := ih s1 fs2 s' fs' h
          obtain ⟨pc, pl, ptn, pdr, pitems⟩ :=
            processItems_done_inv env cat.name (env.feeds cat.url).items s
              (ensureDir fs cat.name) s1 fs2 hpi
          refine ⟨fun hc => ic (pc hc), fun x hx => il x (pl x hx),
            fun n hn => itn n (ptn n hn), ?_, ?_⟩
          · intro dn hdn
            apply idr
            rw [pdr]
            exact ensureDir_superset fs cat.name dn hdn
          · intro c hc
            rcases List.mem_cons.mp hc with hc | hc
            · subst hc
              refine ⟨?_, fun _ => ⟨hm2.1, hm2.2, ?_⟩⟩
              · apply idr
                rw [pdr]
                exact ensureDir_mem fs c.name
              · intro a ha
                obtain ⟨L, hl, hL⟩ := pitems a ha
                exact ⟨L, hl, il L hL⟩
            · exact icat c hc
        | crashed e s1 fs2 =>
          rw [hpi] at h
          dsimp only at h
          exact RunResult.noConfusion h

/-- When every item's link is already in `recent_links`, the item loop is a
no-op: each `record_article` returns at line 112. -/

lemma processItems_all_skip (env : Env) (topic : String) :
    ∀ (items : List Article) (s : DBState) (fs : FS),
    (∀ a, a ∈ items → ∃ L, a.link = some L ∧ L ∈ s.pending.recentLinks) →
    processItems env topic items s fs = RAResult.done s fs := by
  intro items
  induction items with
  | nil =>
    intro s fs _
    rfl
  | cons a rest ih =>
    intro s fs hall
    obtain ⟨L, hl, hL⟩ := hall a (List.mem_cons_self a rest)
    unfold processItems
    rw [record_article_skip env s fs a topic L hl ((record_exists_iff _ _).mpr hL)]
    dsimp only
    exact ih s fs (fun b hb => hall b (List.mem_cons_of_mem a hb))

/-- When every category's directory already exists, no feed triggers the
exit path, and every item link is already recorded, the outer loop changes
nothing. -/

lemma processCategories_all_skip (env : Env) :
    ∀ (cl : List Category) (s : DBState) (fs : FS),
    (∀ cat, cat ∈ cl → (cat.name ∈ fs.dirs
        ∧ ((env.feeds cat.url).bozo = false →
            (env.feeds cat.url).metaTitle.isNone = false
            ∧ (env.feeds cat.url).metaSubtitle.isNone = false
            ∧ ∀ a, a ∈ (env.feeds cat.url).items →
                ∃ L, a.link = some L ∧ L ∈ s.pending.recentLinks))) →
    processCategories env cl s fs = RunResult.ok s fs := by
  intro cl
  induction cl with
  | nil =>
    intro s fs _
    rfl
  | cons cat rest ih =>
    intro s fs hall
    obtain ⟨hdir, hfeed⟩ := hall cat (List.mem_cons_self cat rest)
    have hdirEq : ensureDir fs cat.name = fs := by
      unfold ensureDir
      rw [if_pos (by simpa using hdir)]
    unfold processCategories
    dsimp only
    rw [hdirEq]
    by_cases hb : (env.feeds cat.url).bozo = true
    · rw [if_pos hb]
      exact ih s fs (fun c hc => hall c (List.mem_cons_of_mem cat hc))
    · rw [if_neg hb]
      obtain ⟨hm1, hm2, hitems⟩ := hfeed (Bool.eq_false_iff.mpr hb)
      rw [if_neg (by rw [hm1, hm2]; simp)]
      rw [processItems_all_skip env cat.name (env.feeds cat.url).items s fs hitems]
      dsimp only
      exact ih s fs (fun c hc => hall c (List.mem_cons_of_mem cat hc))

/-! ### The claims -/

/-- C1: the category-table INSERT (lines 131-145) and the `recent_links`
INSERT (lines 146-153) sit in one transaction that only the `db.commit()` at
line 154 makes durable.  `recordArticleUpToCommit` is `record_article`
truncated just before that commit, and its `committed` component is constant
from the moment the ensure-table step finishes, so it is what an interruption
at any point after the first insert (and before the commit) leaves on disk:
the durable `recent_links` rows are exactly the entry ones — the link's dedup
entry does not exist — and the topic table still has no row for the link.
The two writes persist together at the commit or not at all. -/
theorem c1_interrupt_before_commit_leaves_no_trace (env : Env) (s : DBState)
    (a : Article) (topic link : String)
    (hclean : s.pending = s.committed)
    (hnew : (s.committed.recentLinks.contains link) = false)
    (hnorow : s.committed.linkRows topic link = []) :
    (recordArticleUpToCommit env s a topic).1.committed.recent = s.committed.recent
    ∧ ((recordArticleUpToCommit env s a topic).1.committed.recentLinks.contains link) = false
    ∧ (recordArticleUpToCommit env s a topic).1.committed.linkRows topic link = [] := by
  rcases upToCommit_committed env s a topic with h | h <;> rw [h]
  · exact ⟨rfl, hnew, hnorow⟩
  · rw [hclean]
    refine ⟨create_cat_recent _ _, ?_, ?_⟩
    · unfold DB.recentLinks
      rw [create_cat_recent]
      exact hnew
    · unfold DB.linkRows
      rw [create_cat_rowsOf]
      exact hnorow

/-- C1 witness: interrupting the ingestion of `itemA` under `news` from the
fresh state leaves a durable database with no dedup entry and no row for its
link. -/
theorem c1_interrupt_before_commit_leaves_no_trace_witness :
    (recordArticleUpToCommit envOk state0 itemA "news").1.committed.recent
        = state0.committed.recent
    ∧ ((recordArticleUpToCommit envOk state0 itemA "news").1.committed.recentLinks.contains
        "http://x/1") = false
    ∧ (recordArticleUpToCommit envOk state0 itemA "news").1.committed.linkRows
        "news" "http://x/1" = [] :=
  c1_interrupt_before_commit_leaves_no_trace envOk state0 itemA "news" "http://x/1"
    rfl rfl rfl

/-- C2 is wrong about the code: `requests.get` at line 122 has no
try/except, and the main loop at lines 206-207 does not guard
`record_article`, so a network error or timeout raised while fetching one
item propagates and aborts the whole run.  Concretely: over a feed of two
items whose first link's fetch raises a network error, the run crashes with
that error and the second item is never ingested — `recent_links` stays
empty, the `news` table gets no rows, and no archive file is written —
contradicting the claim that items N+1.. are still processed.  (An HTTP
error status does not raise in `requests` and is not checked, so that case
alone does not abort.) -/
theorem c2_fetch_error_aborts_run :
    (runMain envFetchFail [catNews] state0 fsEmpty).errorOf
        = some (RunError.fetchFailed FetchError.network)
    ∧ (runMain envFetchFail [catNews] state0 fsEmpty).finalDB.recentLinks = []
    ∧ (runMain envFetchFail [catNews] state0 fsEmpty).finalDB.rowsOf "news" = []
    ∧ (runMain envFetchFail [catNews] state0 fsEmpty).finalFS.files = [] :=
  ⟨rfl, rfl, rfl, rfl⟩

/-- C3: running the pipeline a second time over the same feed snapshot (same
environment), starting from whatever state and filesystem a successful run
produced, changes nothing: every item's link is already in `recent_links`, so
every `record_article` returns at line 112 without writing, and the run ends
`ok` with the state and filesystem exactly as the first run left them — zero
new category rows, zero new `recent_links` rows, zero new archive files. -/
theorem c3_second_run_is_noop (env : Env) (cl : List Category)
    (s s1 : DBState) (fs fs1 : FS)
    (h1 : runMain env cl s fs = RunResult.ok s1 fs1) :
    runMain env cl s1 fs1 = RunResult.ok s1 fs1 := by
  unfold runMain at h1
  dsimp only at h1
  obtain ⟨ic, il, itn, idr, icat⟩ :=
    processCategories_done_inv env cl
      (if _check_db_table_exists s.pending "recent_links" then s
        else commitDB { s with pending := _create_recent_schema s.pending })
      fs s1 fs1 h1
  have hE2 : "recent_links" ∈
      (if _check_db_table_exists s.pending "recent_links" then s
        else commitDB { s with pending := _create_recent_schema s.pending }).pending.tableNames := by
    split
    · rename_i hch
      exact (check_table_iff _ _).mp hch
    · unfold DB.tableNames _create_recent_schema
      simp [commitDB]
  have hcheck : _check_db_table_exists s1.pending "recent_links" = true :=
    (check_table_iff _ _).mpr (itn _ hE2)
  unfold runMain
  dsimp only
  rw [if_pos hcheck]
  exact processCategories_all_skip env cl s1 fs1 icat

/-- C3 witness: re-running `envOk`'s single-feed pipeline from the state and
filesystem of its first run reproduces them exactly. -/
theorem c3_second_run_is_noop_witness :
    runMain envOk [catNews] stateRun1 fsRun1 = RunResult.ok stateRun1 fsRun1 :=
  c3_second_run_is_noop envOk [catNews] state0 stateRun1 fsEmpty fsRun1 (by decide)

/-- C4 is wrong about the code for an absent `summary`: line 119 passes
`article.get('summary')` — `None` for such an item — to `BeautifulSoup`,
which raises `TypeError`; nothing catches it, so the item is not tolerated
and the whole run aborts with nothing ingested, the following item included.
(An absent `link` likewise raises `KeyError` at line 111.)  The last two
conjuncts show the tolerated side: an item missing `title`, `published`,
`language`, `contributors` and `publisher` is still ingested without error. -/
theorem c4_missing_summary_raises :
    (runMain envNoSummary [catNews] state0 fsEmpty).errorOf = some RunError.typeError
    ∧ (runMain envNoSummary [catNews] state0 fsEmpty).finalDB.recentLinks = []
    ∧ (runMain envNoSummary [catNews] state0 fsEmpty).finalDB.rowsOf "news" = []
    ∧ (runMain envNoSummary [catNews] state0 fsEmpty).finalFS.files = []
    ∧ (runMain envSparse [catNews] state0 fsEmpty).errorOf = none
    ∧ (runMain envSparse [catNews] state0 fsEmpty).finalDB.recentLinks = ["http://x/4"] :=
  ⟨rfl, rfl, rfl, rfl, rfl, rfl⟩

/-- C5: the archive filename (lines 156-165) is a deterministic function of
`published` and `title`: non-word runs are collapsed to the separators `:`
and `_` (lines 157-158) and the result is cut to 100 characters (line 165).
For `published="Mon, 01 Jan 2024 00:00:00"` and `title="Hello, World!"` the
name is the same in every environment — i.e. across runs —
`"Mon:01:Jan:2024:00:00:00_Hello_World_.txt.gz"`, whose characters are all
alphanumeric or the deliberate separators `:`/`_` and the `.txt.gz` extension
dots: no whitespace and no raw punctuation from the inputs survives.  When
`published` is absent — and likewise when `title` is absent — `re.sub`
raises `TypeError` (line 157 resp. line 158) and the handler at lines
160-162 falls back to the `datetime.now().timestamp()` string instead of
failing. -/
theorem c5_filename_determinism :
    (∀ env : Env,
      deriveFilename env (some "Mon, 01 Jan 2024 00:00:00") (some "Hello, World!")
        = "Mon:01:Jan:2024:00:00:00_Hello_World_.txt.gz")
    ∧ ("Mon:01:Jan:2024:00:00:00_Hello_World_.txt.gz".data.all
        (fun c => !c.isWhitespace && (c.isAlphanum || c == ':' || c == '_' || c == '.'))) = true
    ∧ (∀ env : Env, ∀ t : Option String,
        deriveFilename env none t = pyTruncate 100 env.nowTimestamp ++ ".txt.gz")
    ∧ (∀ env : Env, ∀ p : Option String,
        deriveFilename env p none = pyTruncate 100 env.nowTimestamp ++ ".txt.gz") := by
  refine ⟨fun env => ?_, by decide, fun env t => ?_, fun env p => ?_⟩
  · simp only [deriveFilename]
    decide
  · cases t <;> rfl
  · cases p <;> rfl

/-- C5 witness: the concrete filename in the fixture environment. -/
theorem c5_filename_determinism_witness :
    deriveFilename envOk (some "Mon, 01 Jan 2024 00:00:00") (some "Hello, World!")
      = "Mon:01:Jan:2024:00:00:00_Hello_World_.txt.gz" :=
  c5_filename_determinism.1 envOk

/-- C6: `_record_exists` (lines 84-97) consults only the global
`recent_links` table, never the per-category tables, so after ingesting a
fresh link `L` under category `A`, a later `record_article` for an item with
the same link under any other category `B` returns at line 112 with no
writes: the state is returned unchanged, `A`'s table holds exactly one row
for `L`, and `B`'s table holds none. -/
theorem c6_dedup_category_agnostic (env : Env) (s0 s1 : DBState) (fsA fs1 : FS)
    (a b : Article) (A B L : String)
    (ha : a.link = some L) (hb : b.link = some L)
    (hnew : _record_exists s0.pending L = false)
    (hA : A ≠ "recent_links")
    (hA1 : (s0.pending.cats.filter (fun c => c.1 == A)).length ≤ 1)
    (hnorowA : s0.pending.linkRows A L = [])
    (hnorowB : s0.pending.linkRows B L = [])
    (hBA : B ≠ A)
    (h1 : record_article env s0 fsA a A = RAResult.done s1 fs1) :
    record_article env s1 fs1 b B = RAResult.done s1 fs1
    ∧ (s1.committed.linkRows A L).length = 1
    ∧ s1.committed.linkRows B L = [] := by
  obtain ⟨w, body, hsum, hf, hcp, hp, harch, hfs⟩ :=
    record_article_new_done env s0 fsA a A L s1 fs1 ha hnew h1
  have hrecent : s1.pending.recent = s0.pending.recent ++ [(L, env.now)] := by
    rw [hp]
    dsimp only
    rw [ensuredPending_recent]
  have hseen : _record_exists s1.pending L = true := by
    apply (record_exists_iff _ _).mpr
    unfold DB.recentLinks
    rw [hrecent, List.map_append]
    exact List.mem_append.mpr (Or.inr (by simp))
  have hcats : s1.pending.cats
      = (insertCategoryRow (ensuredPending s0 A) A (mkRow env a L w body)).cats := by
    rw [hp]
  refine ⟨record_article_skip env s1 fs1 b B L hb hseen, ?_, ?_⟩
  · rw [hcp]
    unfold DB.linkRows
    rw [show s1.pending.rowsOf A
        = (insertCategoryRow (ensuredPending s0 A) A (mkRow env a L w body)).rowsOf A from by
      unfold DB.rowsOf
      rw [hcats]]
    rw [insertCat_rowsOf_single _ _ _ (ensured_filter_cats_one s0 A hA hA1)]
    rw [ensuredPending_rowsOf]
    rw [List.filter_append]
    rw [show List.filter (fun r => r.link == L) (s0.pending.rowsOf A) = [] from hnorowA]
    simp [mkRow]
  · rw [hcp]
    unfold DB.linkRows
    rw [show s1.pending.rowsOf B
        = (insertCategoryRow (ensuredPending s0 A) A (mkRow env a L w body)).rowsOf B from by
      unfold DB.rowsOf
      rw [hcats]]
    rw [insertCat_rowsOf_ne _ _ _ _ hBA, ensuredPending_rowsOf]
    exact hnorowB

/-- C6 witness: after ingesting `itemA` under `news`, the same link under
`sports` is skipped with no change, one row under `news`, none under
`sports`. -/
theorem c6_dedup_category_agnostic_witness :
    record_article envOk stateAfterA fsAfterA itemA "sports" = RAResult.done stateAfterA fsAfterA
    ∧ (stateAfterA.committed.linkRows "news" "http://x/1").length = 1
    ∧ stateAfterA.committed.linkRows "sports" "http://x/1" = [] :=
  c6_dedup_category_agnostic envOk state0 stateAfterA fsEmpty fsAfterA itemA itemA
    "news" "sports" "http://x/1" rfl rfl rfl (by decide) (by decide) rfl rfl (by decide) rfl

/-- C7: `recent_links` carries the unique index `idx_links_link` on `link`
(line 55), so the INSERT of lines 146-153, called again with a link it has
already accepted, fails with `IntegrityError`; and an insert never raises a
link's row count in the cache above one, so the cache holds at most one row
per distinct link. -/
theorem c7_duplicate_recent_insert_fails (d d' : DB) (l t t' : String)
    (h : insertRecent d l t = Except.ok d') :
    insertRecent d' l t' = Except.error SqlError.integrityError
    ∧ ∀ x : String,
        (d.recent.filter (fun r => r.1 == x)).length ≤ 1 →
        (d'.recent.filter (fun r => r.1 == x)).length ≤ 1 := by
  unfold insertRecent at h
  split at h
  · rename_i hz
    cases h
    constructor
    · simp [insertRecent, List.filter_append]
    · intro x hx
      by_cases hlx : l = x
      · subst hlx
        have h0 : (d.recent.filter (fun r => r.1 == l)) = [] := by
          simpa [beq_iff_eq, List.length_eq_zero] using hz
        simp [List.filter_append, h0]
      · have h1 : ([(l, t)].filter (fun r => r.1 == x)) = [] := by
          simp [hlx]
        simpa [List.filter_append, h1] using hx
  · exact absurd h (by simp)

/-- C7 witness: a concrete cache accepts a fresh link once and rejects the
same link on the second insert. -/
theorem c7_duplicate_recent_insert_fails_witness :
    insertRecent dRecentOne "http://x/2" "d2" = Except.ok dRecentTwo
    ∧ insertRecent dRecentTwo "http://x/2" "d3" = Except.error SqlError.integrityError :=
  ⟨rfl,
   (c7_duplicate_recent_insert_fails dRecentOne dRecentTwo "http://x/2" "d2" "d3"
      rfl).1⟩

/-- C8: a feed whose parse result has the `bozo` flag set is skipped whole
with a warning (lines 193-196): the loop moves on to the remaining categories
with the database state untouched, so the feed contributes zero rows to any
category table and zero rows to `recent_links` regardless of its items; the
only effect is the drop directory made at lines 189-190 before the check. -/
theorem c8_bozo_feed_skipped (env : Env) (cat : Category) (rest : List Category)
    (s : DBState) (fs : FS)
    (hb : (env.feeds cat.url).bozo = true) :
    processCategories env (cat :: rest) s fs
      = processCategories env rest s (ensureDir fs cat.name) := by
  simp only [processCategories, hb, if_true]

/-- C8 witness: the concrete bozo feed leaves the database untouched. -/
theorem c8_bozo_feed_skipped_witness :
    processCategories envBozo [catNews] state0 fsEmpty
      = processCategories envBozo [] state0 (ensureDir fsEmpty "news") :=
  c8_bozo_feed_skipped envBozo catNews [] state0 fsEmpty rfl

/-- C9's ordering half holds and its error-handling half is wrong about the
code.  The archive write (lines 167-171) happens only after the
`db.commit()` at line 154, so when the write raises `IOError` the crashed
run's durable state still holds the article's `recent_links` entry and its
single category row.  But the `IOError` is not caught anywhere: instead of
being logged and skipped it aborts the run, so the next item is never
processed (no row and no dedup entry for the second link, and no archive
file at all). -/
theorem c9_archive_failure_aborts_run :
    (runMain envNoArchive [catNews] state0 fsEmpty).errorOf = some RunError.ioError
    ∧ (runMain envNoArchive [catNews] state0 fsEmpty).finalDB.recentLinks = ["http://x/1"]
    ∧ ((runMain envNoArchive [catNews] state0 fsEmpty).finalDB.linkRows "news" "http://x/1").length = 1
    ∧ (runMain envNoArchive [catNews] state0 fsEmpty).finalDB.linkRows "news" "http://x/2" = []
    ∧ (runMain envNoArchive [catNews] state0 fsEmpty).finalFS.files = [] :=
  ⟨rfl, rfl, rfl, rfl, rfl⟩

/-- C10: a feed that is not bozo but whose `feed['feed']` metadata lacks the
`title` or `subtitle` key raises `KeyError` at line 198; the handler at lines
199-205 prints diagnostics and calls `sys.exit(1)`, ending the whole run with
status 1 with the database untouched — before any of that feed's items and
before any subsequent category is processed. -/
theorem c10_missing_feed_meta_exits (env : Env) (cat : Category)
    (rest : List Category) (s : DBState) (fs : FS)
    (hb : (env.feeds cat.url).bozo = false)
    (hm : (env.feeds cat.url).metaTitle = none ∨ (env.feeds cat.url).metaSubtitle = none) :
    processCategories env (cat :: rest) s fs
      = RunResult.exit1 s (ensureDir fs cat.name) := by
  rcases hm with hm | hm <;> simp [processCategories, hb, hm]

/-- C10 witness: a concrete feed with no `subtitle` key exits the run with
the database untouched and the second category unprocessed. -/
theorem c10_missing_feed_meta_exits_witness :
    processCategories envNoSubtitle [catNews, catNews] state0 fsEmpty
      = RunResult.exit1 state0 (ensureDir fsEmpty "news") :=
  c10_missing_feed_meta_exits envNoSubtitle catNews [catNews] state0 fsEmpty rfl
    (Or.inr rfl)

end Newsmonger
